import Mathlib

/-!
Verification development for the 101rescataditos data manager.

The embedding models, at the character level, the pieces of the pipeline the
claims are about:

* `SheetService.get_id`, `SheetService.get_oldest_id` and
  `SheetService.insert_sheet_from_dict` (src/services/sheet_service.py) over a
  header-driven worksheet represented as a list of string rows;
* `AnimalRescueManager.process_instagram_posts`, `filtrarPostNuevos`,
  `armar_datos_a_insertar`, `armar_estado_a_insertar`,
  `armar_post_a_insertar`, `getmediaurl`, `getchildrenid` (src/main.py);
* `DataCombiner._process_expenses` (src/src/services/transaction_service.py).

External model calls (OpenAI) are abstracted as an `Oracle`: a deterministic
function from a post to the caption-analysis response and to the list of
records returned by `analyze_animal_image`.  Exceptions raised inside the
per-post `try` of `process_instagram_posts` are modelled by an abort flag:
rows written before the exception stay written (the writes are not
transactional), the rest of the post is skipped, and the batch continues.

Python string operations (`strip`, `lower`, `split`, `isdigit`) are
re-implemented on `List Char` so that every definition reduces in the kernel;
they agree with Python on the ASCII fragment exercised here (Python's
`lower`/`strip`/`isdigit` additionally handle non-ASCII case folding and
Unicode whitespace, which none of the theorems depend on).
-/

namespace Rescue101

/-! ## Character-level string primitives (Python `str` operations) -/

def lowerChar (c : Char) : Char :=
  if 'A' ≤ c ∧ c ≤ 'Z' then Char.ofNat (c.toNat + 32) else c

/-- Python `s.lower()` (ASCII fragment). -/
def strLower (s : String) : String := ⟨s.data.map lowerChar⟩

def isSpaceChar (c : Char) : Bool :=
  c = ' ' || c = '\t' || c = '\n' || c = '\r'

def trimList (l : List Char) : List Char :=
  ((l.dropWhile isSpaceChar).reverse.dropWhile isSpaceChar).reverse

/-- Python `s.strip()`. -/
def strTrim (s : String) : String := ⟨trimList s.data⟩

/-- Split a character list at every occurrence of `sep`. -/
def splitChar (sep : Char) : List Char → List (List Char)
  | [] => [[]]
  | c :: t =>
    let r := splitChar sep t
    if c = sep then [] :: r
    else
      match r with
      | h :: t2 => (c :: h) :: t2
      | [] => [[c]]

/-- Python `s.split(sep)` for a one-character separator. -/
def strSplit (sep : Char) (s : String) : List String :=
  (splitChar sep s.data).map String.mk

def digitsToNat (l : List Char) : Nat :=
  l.foldl (fun a c => a * 10 + (c.toNat - 48)) 0

/-- Python `s.isdigit()` (ASCII digits). -/
def isDigits (s : String) : Bool :=
  decide (s.data ≠ []) && s.data.all Char.isDigit

def digitChar (n : Nat) : Char := Char.ofNat (48 + n)

def natToStrAux : Nat → Nat → List Char
  | 0, _ => []
  | _ + 1, 0 => []
  | fuel + 1, n => natToStrAux fuel (n / 10) ++ [digitChar (n % 10)]

/-- Python `str(n)` for a natural number. -/
def natToStr (n : Nat) : String :=
  if n = 0 then "0" else ⟨natToStrAux (n + 1) n⟩

/-- Python `str(i)` for an integer. -/
def intToStr (i : Int) : String :=
  if i < 0 then "-" ++ natToStr i.natAbs else natToStr i.natAbs

/-! ## Worksheet model and `SheetService`

A worksheet is its `get_all_values()` snapshot: a list of rows of cell
strings, the first row being the header row. -/

/-- `SheetService.get_id` row scan (src/services/sheet_service.py lines
254-260): return the trimmed `id` cell of the first row whose `nombre` cell
matches the target after strip+lower, skipping matching rows whose `id` cell
is missing or trims to the empty string. -/
def scanRows (target : String) (nc ic : Nat) : List (List String) → Option String
  | [] => none
  | row :: rest =>
    match row.get? nc with
    | some cell =>
      if strLower (strTrim cell) = target then
        match row.get? ic with
        | some idCell =>
          if strTrim idCell ≠ "" then some (strTrim idCell)
          else scanRows target nc ic rest
        | none => scanRows target nc ic rest
      else scanRows target nc ic rest
    | none => scanRows target nc ic rest

/-- `SheetService.get_id(name, worksheet)` (src/services/sheet_service.py
lines 237-263).  Returns `none` on an empty sheet, on a header row without a
`nombre` or `id` column, and when no row matches; never raises. -/
def get_id (name : String) (values : List (List String)) : Option String :=
  match values with
  | [] => none
  | headerRow :: dataRows =>
    let headers := headerRow.map (fun h => strTrim (strLower h))
    match headers.findIdx? (fun h => h == "nombre"),
          headers.findIdx? (fun h => h == "id") with
    | some nc, some ic => scanRows (strLower (strTrim name)) nc ic dataRows
    | _, _ => none

/-- The numeric values of column `ic` (Python
`[int(v) for v in id_values if v.strip().isdigit()]`). -/
def numericIdVals (ic : Nat) (rows : List (List String)) : List Nat :=
  rows.filterMap (fun r =>
    match r.get? ic with
    | some v => if isDigits (strTrim v) then some (digitsToNat (strTrim v).data) else none
    | none => none)

/-- `SheetService.get_oldest_id(worksheet)` (src/services/sheet_service.py
lines 160-199): the maximum numeric value of the `id` column, or the default
`1` when there is no `id` header or no numeric value. -/
def get_oldest_id (values : List (List String)) : Nat :=
  match values with
  | [] => 1
  | headerRow :: dataRows =>
    match headerRow.findIdx? (fun h => strLower h == "id") with
    | none => 1
    | some ic =>
      let nums := numericIdVals ic dataRows
      if nums = [] then 1 else nums.foldl Nat.max 0

/-- `SheetService.insert_sheet_from_dict` row construction
(src/services/sheet_service.py lines 224-226): one cell per header, in header
order, `""` for keys the dict does not provide. -/
def insert_sheet_row (headers : List String) (data : List (String × String)) : List String :=
  headers.map (fun h => (data.lookup h).getD "")

/-! ## Instagram post pipeline (`AnimalRescueManager`, src/main.py)

The spreadsheet state is the three worksheets the Instagram path writes to.
Header rows are the schema-by-convention column names used by the insert
dicts in src/main.py; each table is stored as its list of data rows. -/

def animalHeaders : List String :=
  ["id", "nombre", "fecha", "tipo_animal", "ubicacion", "edad",
   "color_de_pelo", "condicion_de_salud_inicial", "activo", "fecha_actualizacion"]

def interHeaders : List String :=
  ["animal_id", "fecha", "post_id", "contenido", "media_url"]

def eventoHeaders : List String :=
  ["animal_id", "ubicacion_id", "estado_id", "persona_id", "tipo_relacion_id", "fecha"]

structure Store where
  animal : List (List String)
  inter : List (List String)
  evento : List (List String)
deriving DecidableEq

def insAnimal (s : Store) (d : List (String × String)) : Store :=
  { s with animal := s.animal ++ [insert_sheet_row animalHeaders d] }

def insInter (s : Store) (d : List (String × String)) : Store :=
  { s with inter := s.inter ++ [insert_sheet_row interHeaders d] }

def insEvento (s : Store) (d : List (String × String)) : Store :=
  { s with evento := s.evento ++ [insert_sheet_row eventoHeaders d] }

/-- One `children.data` media item of a post; `mediaUrl` is the value of
`thumbnail_url or media_url` / `get("thumbnail_url", get("media_url"))`. -/
structure Child where
  id : String
  mediaUrl : String

/-- One Instagram post as consumed by `process_instagram_posts`.  `fdate` is
`formatted_date` (the publish timestamp reformatted to
`DD/MM/YYYY HH:MM:SS`, main.py line 137) and `tsKey` is the sort key of the
parsed ISO timestamp used by `filtrarPostNuevos`; the `strptime`/`strftime`
round trip itself is I/O glue and is abstracted into these two fields.
`mediaUrl` is `thumbnail_url or media_url` (line 142). -/
structure Post where
  id : String
  caption : String
  permalink : String
  fdate : String
  tsKey : Nat
  mediaUrl : String
  children : Option (List Child)

/-- Result of `analyze_caption_post` after `json.loads` (main.py lines
148-153).  `notJson` is a payload `json.loads` rejects; `badName` is a
payload that loads but whose `data[0]` is missing or not a string (this
includes the response `"0"`, since the guard on line 148 is always true and
`json.loads("0")` yields the integer `0`); both raise before any row is
written.  `ok names events` is `data` with `data[0] = names` and
`data[1] = events`; a wrong-arity tuple inside `events` is only detected by
`armar_estado_a_insertar`. -/
inductive CaptionResp where
  | notJson
  | badName
  | ok (names : String) (events : List (List String))

/-- One record of the list returned by `analyze_animal_image`
(src/services/image_analysis.py lines 137-145).  The `Fecha` field of the
record always equals the `date_time` argument (line 139), i.e. the post's
`formatted_date`, so it is not repeated here. -/
structure AnimalRec where
  nombre : String
  tipo : String
  ubicacion : String
  edad : String
  color : String
  condicion : String

/-- The external model, as a deterministic function of the post: the decoded
`analyze_caption_post` response and the `analyze_animal_image` record list. -/
structure Oracle where
  caption : Post → CaptionResp
  img : Post → List AnimalRec

/-- `armar_datos_a_insertar` (src/main.py lines 226-239). -/
def armar_datos_a_insertar (newId : Int) (fdate : String) (r : AnimalRec) :
    List (String × String) :=
  [("id", intToStr newId), ("nombre", r.nombre), ("fecha", fdate),
   ("tipo_animal", r.tipo), ("ubicacion", r.ubicacion), ("edad", r.edad),
   ("color_de_pelo", r.color), ("condicion_de_salud_inicial", r.condicion),
   ("activo", "TRUE"), ("fecha_actualizacion", fdate)]

/-- `armar_post_a_insertar` (src/main.py lines 252-262). -/
def armar_post_a_insertar (postId animalId mediaUrl permalink fdate : String) :
    List (String × String) :=
  [("animal_id", animalId), ("fecha", fdate), ("post_id", postId),
   ("contenido", permalink), ("media_url", mediaUrl)]

/-- The dict built by `armar_estado_a_insertar` when the tuple has all five
components. -/
def estadoDict (ev : List String) (idv fdate : String) : List (String × String) :=
  [("animal_id", idv), ("ubicacion_id", ev.getD 0 ""), ("estado_id", ev.getD 1 ""),
   ("persona_id", ev.getD 3 ""), ("tipo_relacion_id", ev.getD 4 ""),
   ("fecha", if ev.getD 2 "" = "" then fdate else ev.getD 2 "")]

/-- `armar_estado_a_insertar` (src/main.py lines 241-250).  The `fecha` field
is `evento[2] or formated_date`: the post's publish date is substituted when
the resolved time string is empty.  A tuple with fewer than five components
raises `IndexError` (modelled as `none`), caught by the per-post handler. -/
def armar_estado_a_insertar (ev : List String) (idv fdate : String) :
    Option (List (String × String)) :=
  if 5 ≤ ev.length then some (estadoDict ev idv fdate) else none

/-- `getmediaurl` (src/main.py lines 200-204); `none` is the `IndexError`
raised when the post has children but fewer than `i + 1` of them. -/
def getmediaurl (p : Post) (i : Nat) (mu : String) : Option String :=
  match p.children with
  | some cs => (cs.get? i).map (fun c => c.mediaUrl)
  | none => some mu

/-- `getchildrenid` (src/main.py lines 205-209). -/
def getchildrenid (p : Post) (i : Nat) : Option String :=
  match p.children with
  | some cs => (cs.get? i).map (fun c => c.id)
  | none => some p.id

/-- The loop `for evento in data[1]` (src/main.py lines 187-191) with the
animal identifier already resolved to `idv`.  On a wrong-arity tuple the
`IndexError` aborts the post: rows already appended stay, flag `false`. -/
def insertEventos (evs : List (List String)) (idv fdate : String) (s : Store) :
    Store × Bool :=
  match evs with
  | [] => (s, true)
  | ev :: rest =>
    match armar_estado_a_insertar ev idv fdate with
    | some d => insertEventos rest idv fdate (insEvento s d)
    | none => (s, false)

/-- The loop `for i, result in enumerate(results)` (src/main.py lines
175-182): per record, increment the id counter, append the Animal row, then
resolve media url / child post id (possible `IndexError`) and append the
Interaction row.  Returns the store, the counter, the current `media_url`
variable, and the no-exception flag. -/
def insertResults (p : Post) (fdate : String) :
    List AnimalRec → Nat → Store → Int → String → Store × Int × String × Bool
  | [], _, s, o, mu => (s, o, mu, true)
  | r :: rest, i, s, o, mu =>
    let o1 := o + 1
    let s1 := insAnimal s (armar_datos_a_insertar o1 fdate r)
    match getmediaurl p i mu, getchildrenid p i with
    | some mu1, some pid =>
      insertResults p fdate rest (i + 1)
        (insInter s1 (armar_post_a_insertar pid (intToStr o1) mu1 p.permalink fdate))
        o1 mu1
    | _, _ => (s1, o1, mu, false)

/-- The media download section of the `id is None` branch (src/main.py lines
161-170): with a single name or no children the `media_url` variable is left
unchanged; otherwise the loop over `children.data[:cant_names-1]` leaves
`media_url` at the last child's url. -/
def downloadMediaPhase (p : Post) (cant : Nat) (mu : String) : String :=
  match p.children with
  | none => mu
  | some cs =>
    if cant = 1 then mu
    else ((cs.take (cant - 1)).getLast?).elim mu (fun c => c.mediaUrl)

/-- The mutable locals of the per-post loop body: the spreadsheet state, the
`oldest_id` counter and the `media_url` variable. -/
structure PState where
  s : Store
  oldest : Int
  mu : String

/-- One iteration of `for i, name in enumerate(names)` (src/main.py lines
155-191).  `get_id` hit: append an Interaction row for the existing
identifier.  Miss: run the media download phase, append one Animal and one
Interaction row per `analyze_animal_image` record with sequential ids, then
set the event identifier to `id or (oldest_id - cant_names + 1)`.  Either
way the event tuples are then appended.  The `Bool` is the no-exception
flag; on `false` the remaining names of the post are skipped. -/
def processName (O : Oracle) (p : Post) (events : List (List String)) (cant : Nat)
    (name : String) (ps : PState) : PState × Bool :=
  match get_id name (animalHeaders :: ps.s.animal) with
  | some idv =>
    let s1 := insInter ps.s (armar_post_a_insertar p.id idv ps.mu p.permalink p.fdate)
    let r := insertEventos events idv p.fdate s1
    (⟨r.1, ps.oldest, ps.mu⟩, r.2)
  | none =>
    let mu1 := downloadMediaPhase p cant ps.mu
    match insertResults p p.fdate (O.img p) 0 ps.s ps.oldest mu1 with
    | (s1, o1, mu2, ok) =>
      if ok then
        let idv := intToStr (o1 - (cant : Int) + 1)
        let r2 := insertEventos events idv p.fdate s1
        (⟨r2.1, o1, mu2⟩, r2.2)
      else (⟨s1, o1, mu2⟩, false)

def processNames (O : Oracle) (p : Post) (events : List (List String)) (cant : Nat) :
    List String → PState → PState
  | [], ps => ps
  | n :: rest, ps =>
    match processName O p events cant n ps with
    | (ps1, true) => processNames O p events cant rest ps1
    | (ps1, false) => ps1

/-- The body of `for post in posts` in `process_instagram_posts` (src/main.py
lines 132-196) for one post, given the decoded caption response.  A decode
failure (`notJson` / `badName`) raises before any write, is caught by the
per-post handler, and leaves the state unchanged. -/
def processPost (O : Oracle) (st : Store × Int) (p : Post) : Store × Int :=
  match O.caption p with
  | .notJson => st
  | .badName => st
  | .ok namesStr events =>
    let names := strSplit ',' namesStr
    let out := processNames O p events names.length names ⟨st.1, st.2, p.mediaUrl⟩
    (out.s, out.oldest)

def processPosts (O : Oracle) (st : Store × Int) (posts : List Post) : Store × Int :=
  posts.foldl (processPost O) st

/-- The `contenido` column of the INTERACCION sheet, as read by
`filtrarPostNuevos` through `get_all_records` (src/main.py line 213). -/
def contenidoVals (s : Store) : List String :=
  s.inter.map (fun r => r.getD 3 "")

/-- Stable ascending insertion used to model Python's stable
`list.sort(key=timestamp)`. -/
def insertByTs (p : Post) : List Post → List Post
  | [] => [p]
  | q :: rest => if q.tsKey ≤ p.tsKey then q :: insertByTs p rest else p :: q :: rest

def sortByTs (l : List Post) : List Post :=
  l.foldl (fun acc p => insertByTs p acc) []

/-- `filtrarPostNuevos` (src/main.py lines 211-224): drop every post whose
permalink already occurs in the `contenido` column, then sort ascending by
timestamp. -/
def filtrarPostNuevos (s : Store) (posts : List Post) : List Post :=
  sortByTs (posts.filter (fun p => !((contenidoVals s).contains p.permalink)))

/-- `process_instagram_posts` (src/main.py lines 120-199) on a batch of
fetched posts: read `oldest_id` once from the ANIMAL sheet, filter and sort
the posts, then process each post in turn. -/
def runPosts (O : Oracle) (s : Store) (posts : List Post) : Store :=
  (processPosts O (s, (get_oldest_id (animalHeaders :: s.animal) : Int))
    (filtrarPostNuevos s posts)).1

/-! ## Expenses pipeline (`DataCombiner._process_expenses`,
src/src/services/transaction_service.py lines 421-470) -/

/-- Substring test (pandas `str.contains` with a plain alternation of
escaped literals reduces to substring containment of one of them). -/
def containsSub (needle : List Char) : List Char → Bool
  | [] => needle.isEmpty
  | c :: t => needle.isPrefixOf (c :: t) || containsSub needle t

def isWordChar (c : Char) : Bool := c.isAlphanum || c = '_'

def boundaryBefore : Option Char → Bool
  | none => true
  | some c => !isWordChar c

def boundaryAfter : List Char → Bool
  | [] => true
  | c :: _ => !isWordChar c

/-- Regex word search: `needle` occurs with a word boundary on both sides
(Python `re` `\bNEEDLE\b`, ASCII word characters). -/
def wordSearchAux (needle : List Char) : Option Char → List Char → Bool
  | _, [] => needle.isEmpty
  | prev, c :: t =>
    (needle.isPrefixOf (c :: t) && boundaryBefore prev
      && boundaryAfter ((c :: t).drop needle.length))
    || wordSearchAux needle (some c) t

def hasWord (needle s : String) : Bool := wordSearchAux needle.data none s.data

/-- `Config.EXPENSE_KEYWORDS` (src/src/services/transaction_service.py lines
57-58). -/
def expenseKeywords : List String :=
  ["VETERINA", "LINARES", "MASCOTAS", "PET", "POPPI",
   "WALTER EDUARDO PEREZ", "CABIFY", "BALANCEADOS"]

/-- One row of `df_negativos`: the `DONANTE` and `FECHA` columns the filters
read, plus the remaining cells, carried along unchanged. -/
structure NegRow where
  donante : String
  fecha : String
  otros : List String
deriving DecidableEq

def isLeap (y : Nat) : Bool := (y % 4 = 0 && y % 100 ≠ 0) || y % 400 = 0

def daysInMonth (y m : Nat) : Nat :=
  if m = 2 then (if isLeap y then 29 else 28)
  else if m = 4 || m = 6 || m = 9 || m = 11 then 30 else 31

/-- Digit run of bounded length. -/
def parseNumLen (minL maxL : Nat) (s : String) : Option Nat :=
  if isDigits s && decide (minL ≤ s.data.length ∧ s.data.length ≤ maxL)
  then some (digitsToNat s.data) else none

/-- `pd.to_datetime(col, format="%d/%m/%Y %H:%M:%S", errors="coerce")` on one
cell: the calendar date `(day, month, year)` on a strict format match, `none`
(NaT) otherwise. -/
def parseFecha (s : String) : Option (Nat × Nat × Nat) :=
  match strSplit ' ' s with
  | [dp, tp] =>
    match strSplit '/' dp, strSplit ':' tp with
    | [ds, ms, ys], [hs, mis, ss] =>
      match parseNumLen 1 2 ds, parseNumLen 1 2 ms, parseNumLen 4 4 ys,
            parseNumLen 1 2 hs, parseNumLen 1 2 mis, parseNumLen 1 2 ss with
      | some d, some m, some y, some hh, some mi, some sec =>
        if 1 ≤ m ∧ m ≤ 12 ∧ 1 ≤ d ∧ d ≤ daysInMonth y m ∧
           hh ≤ 23 ∧ mi ≤ 59 ∧ sec ≤ 59
        then some (d, m, y) else none
      | _, _, _, _, _, _ => none
    | _, _ => none
  | _ => none

/-- Day of week, Monday = 0 .. Sunday = 6 (pandas `dt.weekday`), by Zeller's
congruence for the Gregorian calendar. -/
def weekdayMon0 (d m y : Nat) : Nat :=
  let m2 := if m ≤ 2 then m + 12 else m
  let y2 := if m ≤ 2 then y - 1 else y
  let K := y2 % 100
  let J := y2 / 100
  ((d + 13 * (m2 + 1) / 5 + K + K / 4 + J / 4 + 5 * J) % 7 + 5) % 7

/-- Python `s.upper()` (ASCII fragment). -/
def strUpper (s : String) : String :=
  ⟨s.data.map (fun c => if 'a' ≤ c ∧ c ≤ 'z' then Char.ofNat (c.toNat - 32) else c)⟩

/-- The keyword filter (transaction_service.py lines 424-425). -/
def keepKeyword (r : NegRow) : Bool :=
  expenseKeywords.any (fun k => containsSub k.data (strUpper r.donante).data)

/-- `mask_cabify` (line 431): `DONANTE.str.upper().str.contains(r"\bCABIFY\b")`. -/
def cabifyMask (r : NegRow) : Bool := hasWord "CABIFY" (strUpper r.donante)

/-- `mask_weekend` (line 432): the parsed `FECHA` falls on Saturday or
Sunday; a NaT date is not a weekend. -/
def weekendMask (r : NegRow) : Bool :=
  match parseFecha r.fecha with
  | some (d, m, y) => weekdayMon0 d m y = 5 || weekdayMon0 d m y = 6
  | none => false

/-- The `np.select` expense categorisation (lines 444-448). -/
def tipo_de_gasto (r : NegRow) : String :=
  if hasWord "WALTER EDUARDO PEREZ" (strUpper r.donante)
     || hasWord "VETERINAR" (strUpper r.donante)
     || hasWord "LINARES, MARCELO" (strUpper r.donante) then "Veterinaria"
  else if cabifyMask r then "Transporte" else "Alimentos"

/-- `DataCombiner._process_expenses` row selection (lines 421-433): keep the
rows whose provider matches an expense keyword, then drop Cabify rows that do
not fall on a weekend.  The subsequent column renames and added constant
columns carry each kept row along unchanged and are not modelled. -/
def process_expenses (rows : List NegRow) : List NegRow :=
  (rows.filter keepKeyword).filter (fun r => !(cabifyMask r && !weekendMask r))

/-! ## Spec-modelled components

The temporal resolution and the status precedence rule are executed by the
external language model: the repository contains only their natural-language
contract inside `ImageAnalyzer._get_caption_prompt_template`
(src/services/image_analysis.py lines 348-407).  The two definitions below
are therefore modelled from the spec, not translated from executable
source. -/

structure RefTime where
  d : Nat
  m : Nat
  y : Nat
  hh : Nat
  mi : Nat
  ss : Nat
deriving DecidableEq

def pad2 (n : Nat) : String := if n < 10 then "0" ++ natToStr n else natToStr n

def fmtRef (t : RefTime) : String :=
  pad2 t.d ++ "/" ++ pad2 t.m ++ "/" ++ natToStr t.y ++ " " ++
  pad2 t.hh ++ ":" ++ pad2 t.mi ++ ":" ++ pad2 t.ss

def prevDay (t : RefTime) : RefTime :=
  if 1 < t.d then { t with d := t.d - 1 }
  else if 1 < t.m then { t with m := t.m - 1, d := daysInMonth t.y (t.m - 1) }
  else { t with y := t.y - 1, m := 12, d := 31 }

def subDays (t : RefTime) : Nat → RefTime
  | 0 => t
  | n + 1 => subDays (prevDay t) n

/-- Calendar-accurate month subtraction: same day of month, clamped to the
target month's last day, time of day unchanged (spec 4.1). -/
def subMonths (t : RefTime) (n : Nat) : RefTime :=
  let tot := t.y * 12 + (t.m - 1) - n
  let y2 := tot / 12
  let m2 := tot % 12 + 1
  { t with y := y2, m := m2, d := min t.d (daysInMonth y2 m2) }

def subHours (t : RefTime) (n : Nat) : RefTime :=
  let dys := n / 24
  let rem := n % 24
  if rem ≤ t.hh then { subDays t dys with hh := t.hh - rem }
  else { subDays t (dys + 1) with hh := t.hh + 24 - rem }

def parseNumWord (s : String) : Option Nat :=
  if isDigits s then some (digitsToNat s.data) else none

def unitSub (t : RefTime) (k : Nat) (unit : String) : Option RefTime :=
  if unit = "dia" ∨ unit = "dias" ∨ unit = "día" ∨ unit = "días" then some (subDays t k)
  else if unit = "hora" ∨ unit = "horas" then some (subHours t k)
  else if unit = "semana" ∨ unit = "semanas" then some (subDays t (7 * k))
  else if unit = "mes" ∨ unit = "meses" then some (subMonths t k)
  else if unit = "año" ∨ unit = "años" ∨ unit = "ano" ∨ unit = "anos" then
    some (subMonths t (12 * k))
  else none

/-- Modelled from the spec: the Temporal Resolver contract of spec 4.1,
`resolve(reference_timestamp, phrase) -> timestamp | unresolved`.  The
repository has no executable resolver — resolution is delegated to the
external model via the prompt rules of
`ImageAnalyzer._get_caption_prompt_template` (src/services/image_analysis.py
lines 394-404).  Calendar-accurate subtraction is used for month/year units
(the spec's documented preferred policy), `casi N` is treated as `N`, and an
unrecognised phrase yields `""` (unresolved), never an error. -/
def resolve (t : RefTime) (phrase : String) : String :=
  let ws := (strSplit ' ' (strLower (strTrim phrase))).filter (fun w => w ≠ "")
  match ws with
  | ["hoy"] => fmtRef t
  | ["ayer"] => fmtRef (subDays t 1)
  | ["anoche"] => fmtRef (subDays t 1)
  | ["anteayer"] => fmtRef (subDays t 2)
  | ["hace", n, u] =>
    (match parseNumWord n with
     | some k => ((unitSub t k u).map fmtRef).getD ""
     | none => "")
  | ["hace", c, n, u] =>
    if c = "casi" then
      (match parseNumWord n with
       | some k => ((unitSub t k u).map fmtRef).getD ""
       | none => "")
    else ""
  | _ => ""

/-- Modelled from the spec: the status-precedence order `6>5>3>2>1`
(Deceased > Adopted > InAdoption > InTreatment > Lost) stated in the prompt
(src/services/image_analysis.py line 372) and in spec 3/8; applied by the
external model, not by repository code. -/
def statusPrecedence : List Nat := [6, 5, 3, 2, 1]

/-- Modelled from the spec: the status emitted for one inferred event when a
text span carries several simultaneous status signals — the first code of
the precedence list present among the signals. -/
def resolveStatus (signals : List Nat) : Option Nat :=
  statusPrecedence.find? (fun c => signals.contains c)

/-! ## Spec-side name normalization (for comparison only) -/

def foldAccent (c : Char) : Char :=
  if c = 'á' then 'a' else if c = 'é' then 'e' else if c = 'í' then 'i'
  else if c = 'ó' then 'o' else if c = 'ú' then 'u' else if c = 'ü' then 'u' else c

/-- Modelled from the spec: the codec's name normalization (spec 4.2 and
glossary) — case folding, accent stripping, punctuation/emoji removal,
trimming.  The repository implements no such function (the prompt asks the
external model to normalize); this definition only expresses the spec's
notion of "same name after normalization", to be compared with the
strip+lower lookup `get_id` actually performs. -/
def specNormalizeName (s : String) : String :=
  strTrim ⟨((strLower s).data.map foldAccent).filter (fun c => c.isAlphanum || c = ' ')⟩

/-! ## Concrete instances used by counterexamples and witnesses -/

def emptyStore : Store := ⟨[], [], []⟩

def post0 (pl : String) : Post :=
  ⟨"pid1", "cap", pl, "09/08/2025 19:00:00", 0, "m1", none⟩

def lunaRow : List String :=
  ["1", "luna", "d", "perro", "u", "e", "c", "h", "TRUE", "d"]

/-- Oracle of the C1 scenario: the caption decodes to one named animal with
one event tuple, but `analyze_animal_image` returns no record (e.g. the
model answered `IGNORAR`). -/
def c1Oracle : Oracle :=
  ⟨fun _ => .ok "luna" [["1", "2", "x", "0", "0"]], fun _ => []⟩

/-- An Interaction store already holding permalink `p1` in `contenido`. -/
def c1wStore : Store := ⟨[], [["", "", "", "p1", ""]], []⟩

/-- Store of the C2 scenario: one Animal row named `luna` with id `1`. -/
def c2Store : Store := ⟨[lunaRow], [], []⟩

/-- Oracle of the C2 scenario: the extraction names `luná`, which
spec-normalizes to `luna`. -/
def c2Oracle : Oracle :=
  ⟨fun _ => .ok "luná" [], fun _ => [⟨"luná", "gato", "u", "e", "c", "h"⟩]⟩

/-- Oracle of the C3 scenario: a two-name batch `ana,bo` with one event
tuple that does not name its animal. -/
def c3Oracle : Oracle :=
  ⟨fun _ => .ok "ana,bo" [["1", "2", "t", "p", "1"]],
   fun _ => [⟨"ana", "perro", "u", "e", "c", "h"⟩, ⟨"bo", "perro", "u", "e", "c", "h"⟩]⟩

/-- Oracle of the C4 counterexample: the caption decodes, but the single
event tuple has arity 3 instead of 5. -/
def c4BadOracle : Oracle :=
  ⟨fun _ => .ok "luna" [["1", "2", ""]], fun _ => [⟨"luna", "perro", "u", "e", "c", "h"⟩]⟩

/-- Oracle of the C4 witness: the caption response does not parse as JSON. -/
def c4Oracle : Oracle := ⟨fun _ => .notJson, fun _ => []⟩

/-- Oracle of the C5 scenario: one new animal, no event tuples. -/
def c5Oracle : Oracle :=
  ⟨fun _ => .ok "max" [], fun _ => [⟨"max", "perro", "u", "e", "c", "h"⟩]⟩

def c10vals : List (List String) := [["id", "nombre"], ["", "luna"], ["7", "luna"]]

/-- A Saturday Cabify expense row (09/08/2025 is a Saturday). -/
def c9SatRow : NegRow := ⟨"CABIFY*", "09/08/2025 12:00:00", ["x"]⟩

/-! ## Claim theorems -/

/-- C6: with reference 09/08/2025 19:00:00, `hace 2 meses` resolves to
09/06/2025 19:00:00 by calendar-accurate month subtraction (same day of
month, same time of day), `ayer` resolves to the reference minus one day at
the same time, and an unresolvable phrase yields the empty result (the
resolver is a total function, so it never fails). -/
theorem c6_temporal_resolution :
    resolve ⟨9, 8, 2025, 19, 0, 0⟩ "hace 2 meses" = "09/06/2025 19:00:00" ∧
    resolve ⟨9, 8, 2025, 19, 0, 0⟩ "ayer" = fmtRef (subDays ⟨9, 8, 2025, 19, 0, 0⟩ 1) ∧
    fmtRef (subDays ⟨9, 8, 2025, 19, 0, 0⟩ 1) = "08/08/2025 19:00:00" ∧
    resolve ⟨9, 8, 2025, 19, 0, 0⟩ "mañana quizás" = "" := by
  refine ⟨?_, ?_, ?_, ?_⟩ <;> decide

/-- C8 counterexample: an event tuple whose resolved time string is empty
(`evento[2] = ""`) produces an Event dict whose `fecha` is the post's
publication timestamp, not the empty string — `armar_estado_a_insertar`
computes `evento[2] or formated_date` (src/main.py line 248). -/
theorem c8_event_timestamp_counterexample :
    armar_estado_a_insertar ["1", "2", "", "p", "1"] "7" "09/08/2025 19:00:00" =
      some (estadoDict ["1", "2", "", "p", "1"] "7" "09/08/2025 19:00:00") ∧
    (estadoDict ["1", "2", "", "p", "1"] "7" "09/08/2025 19:00:00").lookup "fecha" =
      some "09/08/2025 19:00:00" ∧
    ("09/08/2025 19:00:00" : String) ≠ "" := by
  refine ⟨?_, ?_, ?_⟩ <;> decide

/-- C8 amended: when the resolved time string of an event tuple is empty the
emitted Event row stores the post's publication timestamp (`formatted_date`),
not an empty timestamp; the stored `fecha` is `evento[2]` only when
`evento[2]` is non-empty. -/
theorem c8_event_timestamp_amended (ev : List String) (idv fdate : String)
    (d : List (String × String)) (h : armar_estado_a_insertar ev idv fdate = some d) :
    d.lookup "fecha" = some (if ev.getD 2 "" = "" then fdate else ev.getD 2 "") := by
  unfold armar_estado_a_insertar at h
  split at h
  · rw [Option.some.injEq] at h
    subst h
    rfl
  · exact absurd h (by simp)

/-- C8 witness: the amended theorem applied to a concrete arity-5 tuple with
an empty time component. -/
theorem c8_event_timestamp_witness :
    armar_estado_a_insertar ["4", "5", "", "q", "2"] "9" "01/01/2024 08:00:00" =
      some (estadoDict ["4", "5", "", "q", "2"] "9" "01/01/2024 08:00:00") ∧
    (estadoDict ["4", "5", "", "q", "2"] "9" "01/01/2024 08:00:00").lookup "fecha" =
      some "01/01/2024 08:00:00" :=
  ⟨by decide,
   c8_event_timestamp_amended ["4", "5", "", "q", "2"] "9" "01/01/2024 08:00:00" _ (by decide)⟩

lemma containsNat_eq_true {a : Nat} {l : List Nat} (h : a ∈ l) : l.contains a = true :=
  List.elem_iff.mpr h

lemma containsNat_eq_false {a : Nat} {l : List Nat} (h : a ∉ l) : l.contains a = false := by
  rw [← Bool.not_eq_true]
  intro hc
  exact h (List.elem_iff.mp hc)

/-- C7: for signals drawn from the status codes, the status emitted for one
inferred event is a member of the signal set that bounds every signal — the
precedence `6 > 5 > 3 > 2 > 1` picks the highest code present; in
particular simultaneous `adopted` (5) and `in treatment` (2) signals yield
Adopted (5) in either order, never InTreatment. -/
theorem c7_status_precedence :
    (∀ l : List Nat, l ≠ [] → (∀ x ∈ l, x ∈ statusPrecedence) →
      ∃ mx, resolveStatus l = some mx ∧ mx ∈ l ∧ ∀ x ∈ l, x ≤ mx) ∧
    resolveStatus [5, 2] = some 5 ∧ resolveStatus [2, 5] = some 5 := by
  refine ⟨?_, by decide, by decide⟩
  intro l hne hval
  by_cases h6 : 6 ∈ l
  · refine ⟨6, ?_, h6, ?_⟩
    · simp [resolveStatus, statusPrecedence, List.find?, h6]
    · intro x hx
      have hv := hval x hx
      simp [statusPrecedence] at hv
      omega
  by_cases h5 : 5 ∈ l
  · refine ⟨5, ?_, h5, ?_⟩
    · simp [resolveStatus, statusPrecedence, List.find?, h6, h5]
    · intro x hx
      have hv := hval x hx
      simp [statusPrecedence] at hv
      rcases hv with h | h | h | h | h
      · exact absurd (h ▸ hx) h6
      all_goals omega
  by_cases h3 : 3 ∈ l
  · refine ⟨3, ?_, h3, ?_⟩
    · simp [resolveStatus, statusPrecedence, List.find?, h6, h5, h3]
    · intro x hx
      have hv := hval x hx
      simp [statusPrecedence] at hv
      rcases hv with h | h | h | h | h
      · exact absurd (h ▸ hx) h6
      · exact absurd (h ▸ hx) h5
      all_goals omega
  by_cases h2 : 2 ∈ l
  · refine ⟨2, ?_, h2, ?_⟩
    · simp [resolveStatus, statusPrecedence, List.find?, h6, h5, h3, h2]
    · intro x hx
      have hv := hval x hx
      simp [statusPrecedence] at hv
      rcases hv with h | h | h | h | h
      · exact absurd (h ▸ hx) h6
      · exact absurd (h ▸ hx) h5
      · exact absurd (h ▸ hx) h3
      all_goals omega
  by_cases h1 : 1 ∈ l
  · refine ⟨1, ?_, h1, ?_⟩
    · simp [resolveStatus, statusPrecedence, List.find?, h6, h5, h3, h2, h1]
    · intro x hx
      have hv := hval x hx
      simp [statusPrecedence] at hv
      rcases hv with h | h | h | h | h
      · exact absurd (h ▸ hx) h6
      · exact absurd (h ▸ hx) h5
      · exact absurd (h ▸ hx) h3
      · exact absurd (h ▸ hx) h2
      · omega
  · cases l with
    | nil => exact absurd rfl hne
    | cons a t =>
      have hv := hval a (List.mem_cons_self a t)
      simp [statusPrecedence] at hv
      rcases hv with h | h | h | h | h
      · exact absurd (h ▸ List.mem_cons_self a t) h6
      · exact absurd (h ▸ List.mem_cons_self a t) h5
      · exact absurd (h ▸ List.mem_cons_self a t) h3
      · exact absurd (h ▸ List.mem_cons_self a t) h2
      · exact absurd (h ▸ List.mem_cons_self a t) h1

/-- C7 witness: the precedence theorem applied to the concrete signal batch
`[5, 2]`. -/
theorem c7_status_precedence_witness :
    ([5, 2] : List Nat) ≠ [] ∧
    ∃ mx, resolveStatus [5, 2] = some mx ∧ mx ∈ ([5, 2] : List Nat) ∧
      ∀ x ∈ ([5, 2] : List Nat), x ≤ mx :=
  ⟨by decide, c7_status_precedence.1 [5, 2] (by decide) (by decide)⟩

/-- A post whose permalink already occurs in the `contenido` column is
removed by `filtrarPostNuevos`, so a run over just that post writes
nothing. -/
lemma runPosts_skip (O : Oracle) (s : Store) (p : Post)
    (h : (contenidoVals s).contains p.permalink = true) : runPosts O s [p] = s := by
  have hmem : p.permalink ∈ contenidoVals s := by simpa using h
  simp [runPosts, filtrarPostNuevos, sortByTs, processPosts, List.filter, hmem]

/-- C1 amended: a post whose permalink already appears in the `contenido`
column of the Interaction snapshot is filtered out, and reprocessing it
mutates nothing; consequently processing the same post twice is the same as
processing it once *provided* the first processing recorded the permalink in
`contenido` (which it does whenever the name lookup succeeds or the image
analysis returns at least one record, but not when the animal is new and the
image analysis returns no record). -/
theorem c1_dedup_idempotence_amended (O : Oracle) (s : Store) (p : Post) :
    ((contenidoVals s).contains p.permalink = true → runPosts O s [p] = s) ∧
    ((contenidoVals (runPosts O s [p])).contains p.permalink = true →
      runPosts O (runPosts O s [p]) [p] = runPosts O s [p]) :=
  ⟨fun h => runPosts_skip O s p h, fun h => runPosts_skip O (runPosts O s [p]) p h⟩

/-- C1 witness: the amended theorem applied to a store already holding
permalink `p1`. -/
theorem c1_dedup_idempotence_witness :
    (contenidoVals c1wStore).contains (post0 "p1").permalink = true ∧
    runPosts c1Oracle c1wStore [post0 "p1"] = c1wStore :=
  ⟨by decide, (c1_dedup_idempotence_amended c1Oracle c1wStore (post0 "p1")).1 (by decide)⟩

/-- C1 counterexample: on an empty store, a post whose caption decodes to a
named animal with one event tuple but whose image analysis yields no record
writes an Event row and *no* Interaction row, so its permalink is never
recorded and a second run with the resulting store duplicates the Event row:
processing twice does not equal processing once. -/
theorem c1_dedup_idempotence_counterexample :
    runPosts c1Oracle (runPosts c1Oracle emptyStore [post0 "p1"]) [post0 "p1"] ≠
      runPosts c1Oracle emptyStore [post0 "p1"] ∧
    (runPosts c1Oracle emptyStore [post0 "p1"]).inter = [] ∧
    (runPosts c1Oracle emptyStore [post0 "p1"]).evento.length = 1 ∧
    (runPosts c1Oracle (runPosts c1Oracle emptyStore [post0 "p1"]) [post0 "p1"]).evento.length = 2 := by
  refine ⟨?_, ?_, ?_, ?_⟩ <;> decide

/-- C4 amended: a caption payload that `json.loads` rejects, or whose first
component is missing or not a string, raises before any write and leaves the
store unchanged; and a failed record never stops the batch — the fold always
continues with the next post.  (A wrong-arity event tuple, by contrast, is
only detected while building the Event row, after the post's Animal and
Interaction rows were already written; see the counterexample.) -/
theorem c4_malformed_skip_amended (O : Oracle) (st : Store × Int) (p : Post) :
    (O.caption p = .notJson ∨ O.caption p = .badName → processPost O st p = st) ∧
    (∀ ps, processPosts O st (p :: ps) = processPosts O (processPost O st p) ps) := by
  constructor
  · intro h
    rcases h with h | h <;> simp [processPost, h]
  · intro ps
    rfl

/-- C4 witness: the amended theorem applied to a non-JSON caption response. -/
theorem c4_malformed_skip_witness :
    c4Oracle.caption (post0 "p4") = .notJson ∧
    processPost c4Oracle (emptyStore, 1) (post0 "p4") = (emptyStore, 1) :=
  ⟨rfl, (c4_malformed_skip_amended c4Oracle (emptyStore, 1) (post0 "p4")).1 (Or.inl rfl)⟩

/-- C4 counterexample: a record whose single event tuple has arity 3 (not
parseable per the grammar) still mutates the store — the Animal row and the
Interaction row are appended before `armar_estado_a_insertar` hits the
`IndexError`, refuting "processing that record writes no store row". -/
theorem c4_malformed_skip_counterexample :
    runPosts c4BadOracle emptyStore [post0 "p4"] ≠ emptyStore ∧
    (runPosts c4BadOracle emptyStore [post0 "p4"]).animal.length = 1 ∧
    (runPosts c4BadOracle emptyStore [post0 "p4"]).inter.length = 1 ∧
    (runPosts c4BadOracle emptyStore [post0 "p4"]).evento = [] := by
  refine ⟨?_, ?_, ?_, ?_⟩ <;> decide

/-- The id column values `o+1, o+2, …, o+n` produced by `n` consecutive
creations starting from counter value `o`. -/
def idStrings (o : Int) : Nat → List String
  | 0 => []
  | n + 1 => intToStr (o + 1) :: idStrings (o + 1) n

/-- For a post without children the creation loop appends one Animal row per
record with sequential ids `o+1 …`, advances the counter by the number of
records, leaves the Event table and the `media_url` variable unchanged, and
raises no exception. -/
lemma insertResults_spec (p : Post) (hp : p.children = none) (fd : String) :
    ∀ (rs : List AnimalRec) (i : Nat) (s : Store) (o : Int) (mu : String),
      (insertResults p fd rs i s o mu).1.animal.map (fun r => r.getD 0 "") =
        s.animal.map (fun r => r.getD 0 "") ++ idStrings o rs.length ∧
      (insertResults p fd rs i s o mu).2.1 = o + (rs.length : Int) ∧
      (insertResults p fd rs i s o mu).1.evento = s.evento ∧
      (insertResults p fd rs i s o mu).2.2.1 = mu ∧
      (insertResults p fd rs i s o mu).2.2.2 = true := by
  intro rs
  induction rs with
  | nil =>
    intro i s o mu
    simp [insertResults, idStrings]
  | cons r rest ih =>
    intro i s o mu
    have step : insertResults p fd (r :: rest) i s o mu =
        insertResults p fd rest (i + 1)
          (insInter (insAnimal s (armar_datos_a_insertar (o + 1) fd r))
            (armar_post_a_insertar p.id (intToStr (o + 1)) mu p.permalink fd)) (o + 1) mu := by
      simp [insertResults, getmediaurl, getchildrenid, hp]
    rw [step]
    obtain ⟨h1, h2, h3, h4, h5⟩ := ih (i + 1)
      (insInter (insAnimal s (armar_datos_a_insertar (o + 1) fd r))
        (armar_post_a_insertar p.id (intToStr (o + 1)) mu p.permalink fd)) (o + 1) mu
    refine ⟨?_, ?_, ?_, h4, h5⟩
    · rw [h1]
      have hhead : (insert_sheet_row animalHeaders (armar_datos_a_insertar (o + 1) fd r))[0]?.getD "" =
          intToStr (o + 1) := rfl
      simp [insInter, insAnimal, idStrings, hhead, List.append_assoc]
    · rw [h2]
      simp only [List.length_cons]
      push_cast
      ring
    · rw [h3]
      rfl

/-- C5 amended: `get_oldest_id` returns the maximum numeric id of the ANIMAL
sheet whenever at least one numeric id is present, and each newly created
Animal row receives id counter + 1 with the counter advancing by one per
created row — so ids are assigned sequentially from max + 1.  When no
numeric id exists (in particular on an empty store) the baseline is the
default `1`, so the first created row receives id `2`. -/
theorem c5_sequential_ids_amended (s : Store) (p : Post) (fd mu : String)
    (rs : List AnimalRec) (o : Int) :
    (numericIdVals 0 s.animal ≠ [] →
      get_oldest_id (animalHeaders :: s.animal) =
        (numericIdVals 0 s.animal).foldl Nat.max 0) ∧
    (p.children = none →
      (insertResults p fd rs 0 s o mu).1.animal.map (fun r => r.getD 0 "") =
        s.animal.map (fun r => r.getD 0 "") ++ idStrings o rs.length ∧
      (insertResults p fd rs 0 s o mu).2.1 = o + (rs.length : Int)) := by
  constructor
  · intro h
    have hred : get_oldest_id (animalHeaders :: s.animal) =
        if numericIdVals 0 s.animal = [] then 1
        else (numericIdVals 0 s.animal).foldl Nat.max 0 := rfl
    rw [hred, if_neg h]
  · intro hp
    obtain ⟨h1, h2, _, _, _⟩ := insertResults_spec p hp fd rs 0 s o mu
    exact ⟨h1, h2⟩

/-- C5 witness: the amended theorem applied to a store with one numeric id
and to a one-record creation loop. -/
theorem c5_sequential_ids_witness :
    (numericIdVals 0 c2Store.animal ≠ [] ∧
      get_oldest_id (animalHeaders :: c2Store.animal) =
        (numericIdVals 0 c2Store.animal).foldl Nat.max 0) ∧
    ((post0 "w5").children = none ∧
      (insertResults (post0 "w5") "f" [⟨"max", "perro", "u", "e", "c", "h"⟩] 0 c2Store 1 "m").2.1 =
        1 + (([⟨"max", "perro", "u", "e", "c", "h"⟩] : List AnimalRec).length : Int)) :=
  ⟨⟨by decide,
    (c5_sequential_ids_amended c2Store (post0 "w5") "f" "m"
      [⟨"max", "perro", "u", "e", "c", "h"⟩] 1).1 (by decide)⟩,
   ⟨rfl,
    ((c5_sequential_ids_amended c2Store (post0 "w5") "f" "m"
      [⟨"max", "perro", "u", "e", "c", "h"⟩] 1).2 rfl).2⟩⟩

/-- C5 counterexample: on a store with no Animal rows the first created row
receives id `2`, because `get_oldest_id` returns the default baseline `1`
for an empty sheet — not `1` as "maximum numeric identifier present plus
one" would give for an empty store. -/
theorem c5_sequential_ids_counterexample :
    emptyStore.animal = [] ∧
    get_oldest_id (animalHeaders :: emptyStore.animal) = 1 ∧
    (runPosts c5Oracle emptyStore [post0 "p5"]).animal.map (fun r => r.getD 0 "") = ["2"] := by
  refine ⟨rfl, ?_, ?_⟩ <;> decide

/-- `insertEventos` never touches the ANIMAL table. -/
lemma insertEventos_animal :
    ∀ (evs : List (List String)) (idv fd : String) (s : Store),
      (insertEventos evs idv fd s).1.animal = s.animal := by
  intro evs
  induction evs with
  | nil => intro idv fd s; rfl
  | cons ev rest ih =>
    intro idv fd s
    cases h : armar_estado_a_insertar ev idv fd with
    | some d =>
      simp only [insertEventos, h]
      rw [ih idv fd (insEvento s d)]
      rfl
    | none => simp only [insertEventos, h]

/-- With well-formed (arity ≥ 5) tuples, `insertEventos` appends exactly one
Event row per tuple and raises no exception. -/
lemma insertEventos_ok :
    ∀ (evs : List (List String)) (idv fd : String) (s : Store),
      (∀ ev ∈ evs, 5 ≤ ev.length) →
      insertEventos evs idv fd s =
        ({ s with evento := s.evento ++
            evs.map (fun ev => insert_sheet_row eventoHeaders (estadoDict ev idv fd)) }, true) := by
  intro evs
  induction evs with
  | nil => intro idv fd s _; simp [insertEventos]
  | cons ev rest ih =>
    intro idv fd s h
    have h5 : 5 ≤ ev.length := h ev (List.mem_cons_self ev rest)
    have ha : armar_estado_a_insertar ev idv fd = some (estadoDict ev idv fd) := by
      simp [armar_estado_a_insertar, h5]
    simp only [insertEventos, ha]
    rw [ih idv fd (insEvento s (estadoDict ev idv fd))
      (fun e he => h e (List.mem_cons_of_mem ev he))]
    simp [insEvento, List.append_assoc]

/-- C3 amended: in the iteration that creates a batch of new animals (name
lookup missed, post without children, well-formed tuples), every event tuple
of the post is written with the fallback identifier
`oldest_id − cant_names + 1`, where `oldest_id` is the counter *after* the
creations.  When the whole batch of `cant_names` animals is created in this
iteration this is the batch's FIRST-created identifier, not the
last-created one; the tuples are moreover re-emitted in each later name
iteration with that name's own identifier. -/
theorem c3_event_fallback_amended (O : Oracle) (p : Post) (events : List (List String))
    (cant : Nat) (name : String) (ps : PState)
    (hmiss : get_id name (animalHeaders :: ps.s.animal) = none)
    (hch : p.children = none)
    (harity : ∀ ev ∈ events, 5 ≤ ev.length) :
    (processName O p events cant name ps).1.s.evento =
      ps.s.evento ++ events.map (fun ev =>
        insert_sheet_row eventoHeaders
          (estadoDict ev
            (intToStr (ps.oldest + ((O.img p).length : Int) - (cant : Int) + 1)) p.fdate)) ∧
    (processName O p events cant name ps).1.oldest =
      ps.oldest + ((O.img p).length : Int) := by
  obtain ⟨ha, hc, he, hm, hok⟩ :=
    insertResults_spec p hch p.fdate (O.img p) 0 ps.s ps.oldest (downloadMediaPhase p cant ps.mu)
  rcases hr : insertResults p p.fdate (O.img p) 0 ps.s ps.oldest (downloadMediaPhase p cant ps.mu)
    with ⟨s1, o1, mu2, ok⟩
  rw [hr] at hc he hok
  simp only at hc he hok
  subst hok
  simp only [processName, hmiss, hr, if_true]
  rw [insertEventos_ok events (intToStr (o1 - (cant : Int) + 1)) p.fdate s1 harity]
  refine ⟨?_, hc⟩
  simp [he, hc]

/-- C3 witness: the amended theorem applied to the two-name batch scenario
(`ana,bo`, counter 1, two records created). -/
theorem c3_event_fallback_witness :
    get_id "ana" (animalHeaders :: emptyStore.animal) = none ∧
    (processName c3Oracle (post0 "p3") [["1", "2", "t", "p", "1"]] 2 "ana"
        (PState.mk emptyStore 1 "m")).1.oldest =
      (1 : Int) + ((c3Oracle.img (post0 "p3")).length : Int) :=
  ⟨by decide,
   (c3_event_fallback_amended c3Oracle (post0 "p3") [["1", "2", "t", "p", "1"]] 2 "ana"
      (PState.mk emptyStore 1 "m") (by decide) rfl (by decide)).2⟩

/-- C3 counterexample: processing the two-name post on an empty store
creates Animal rows with identifiers 2 and 3 (so the last-created identifier
of the batch is 3), yet the ambiguous event tuple is written with identifier
2 — the first-created one, `oldest_id − cant_names + 1` — in the creating
iteration, and re-emitted with identifier 3 by the second name's iteration.
The claim "assigns that event to the last-created identifier" fails. -/
theorem c3_event_fallback_counterexample :
    (runPosts c3Oracle emptyStore [post0 "p3"]).animal.map (fun r => r.getD 0 "") = ["2", "3"] ∧
    (runPosts c3Oracle emptyStore [post0 "p3"]).evento.map (fun r => r.getD 0 "") = ["2", "3"] := by
  constructor <;> decide

/-- The row predicate realised by the `get_id` scan: the `nombre` cell
strip+lower-matches the target and the `id` cell exists and does not trim to
the empty string. -/
def rowMatchP (target : String) (nc ic : Nat) (row : List String) : Bool :=
  (match row.get? nc with
   | some cell => strLower (strTrim cell) == target
   | none => false) &&
  (match row.get? ic with
   | some v => decide (strTrim v ≠ "")
   | none => false)

/-- The `get_id` scan returns the trimmed id cell of the *first row
satisfying `rowMatchP`* — matching rows whose id cell is empty or missing
are skipped, not returned. -/
lemma scanRows_eq_find (target : String) (nc ic : Nat) :
    ∀ rows : List (List String),
      scanRows target nc ic rows =
        (rows.find? (rowMatchP target nc ic)).bind (fun row => (row.get? ic).map strTrim) := by
  intro rows
  induction rows with
  | nil => rfl
  | cons row rest ih =>
    cases hnc : row[nc]? with
    | none =>
      have hm : rowMatchP target nc ic row = false := by simp [rowMatchP, hnc]
      simp [scanRows, hnc, List.find?, hm, ih]
    | some cell =>
      by_cases heq : strLower (strTrim cell) = target
      · cases hic : row[ic]? with
        | none =>
          have hm : rowMatchP target nc ic row = false := by simp [rowMatchP, hnc, hic]
          simp [scanRows, hnc, hic, heq, List.find?, hm, ih]
        | some v =>
          by_cases hv : strTrim v = ""
          · have hm : rowMatchP target nc ic row = false := by
              simp [rowMatchP, hnc, hic, hv]
            simp [scanRows, hnc, hic, heq, hv, List.find?, hm, ih]
          · have hm : rowMatchP target nc ic row = true := by
              simp [rowMatchP, hnc, hic, hv, heq]
            simp [scanRows, hnc, hic, heq, hv, List.find?, hm]
      · have hm : rowMatchP target nc ic row = false := by simp [rowMatchP, hnc, heq]
        simp [scanRows, hnc, heq, List.find?, hm, ih]

/-- `get_id` depends on the queried name only through strip+lower. -/
lemma get_id_congr (n1 n2 : String) (h : strLower (strTrim n1) = strLower (strTrim n2)) :
    ∀ values, get_id n1 values = get_id n2 values := by
  intro values
  cases values with
  | nil => rfl
  | cons hd tl => simp [get_id, h]

/-- C2 amended: two extraction names equal after whitespace-trimming and
lowercasing — the only normalization `get_id` applies — resolve to the same
lookup result on the same snapshot; a name whose lookup succeeds inserts no
Animal row; and whenever the snapshot holds an Animal row whose stored
`nombre` trim+lower-matches the name with a non-empty id cell, the lookup
succeeds.  (Spec-level normalization also strips accents, which the lookup
does not; see the counterexample.) -/
theorem c2_name_merge_amended :
    (∀ (n1 n2 : String) (values : List (List String)),
      strLower (strTrim n1) = strLower (strTrim n2) → get_id n1 values = get_id n2 values) ∧
    (∀ (O : Oracle) (p : Post) (events : List (List String)) (cant : Nat)
        (name : String) (ps : PState) (idv : String),
      get_id name (animalHeaders :: ps.s.animal) = some idv →
      (processName O p events cant name ps).1.s.animal = ps.s.animal) ∧
    (∀ (name : String) (s : Store),
      (∃ row ∈ s.animal, rowMatchP (strLower (strTrim name)) 1 0 row = true) →
      get_id name (animalHeaders :: s.animal) ≠ none) := by
  refine ⟨fun n1 n2 values h => get_id_congr n1 n2 h values, ?_, ?_⟩
  · intro O p events cant name ps idv h
    simp only [processName, h]
    rw [insertEventos_animal]
    rfl
  · intro name s hex
    have hred : get_id name (animalHeaders :: s.animal) =
        scanRows (strLower (strTrim name)) 1 0 s.animal := rfl
    rw [hred, scanRows_eq_find]
    obtain ⟨r2, hfind⟩ : ∃ r2,
        s.animal.find? (rowMatchP (strLower (strTrim name)) 1 0) = some r2 :=
      Option.isSome_iff_exists.mp (List.find?_isSome.mpr hex)
    have hP2 := List.find?_some hfind
    unfold rowMatchP at hP2
    rw [Bool.and_eq_true] at hP2
    rcases hP2 with ⟨_, hP2b⟩
    cases hv : r2[0]? with
    | none =>
      rw [List.get?_eq_getElem?, hv] at hP2b
      exact absurd hP2b (by simp)
    | some v => simp [hfind, hv]

/-- C2 witness: the amended theorem applied to a snapshot already holding an
Animal row `luna` with id `1`: the lookup hits and the ANIMAL table is left
unchanged by that name's iteration. -/
theorem c2_name_merge_witness :
    get_id "luna" (animalHeaders :: c2Store.animal) = some "1" ∧
    (processName c2Oracle (post0 "w2") [] 1 "luna" (PState.mk c2Store 1 "m")).1.s.animal =
      c2Store.animal :=
  ⟨by decide,
   c2_name_merge_amended.2.1 c2Oracle (post0 "w2") [] 1 "luna"
     (PState.mk c2Store 1 "m") "1" (by decide)⟩

/-- C2 counterexample: `luná` and `luna` are equal after the spec's
normalization (which strips accents), but the lookup applies no accent
stripping: on a store holding Animal row `luna` (id 1), an extraction naming
`luná` misses the lookup and a second Animal row is created with identifier
2 — two Animal rows for one normalized identity, resolved to different
identifiers. -/
theorem c2_name_merge_counterexample :
    specNormalizeName "luná" = specNormalizeName "luna" ∧
    (runPosts c2Oracle c2Store [post0 "p2"]).animal.map (fun r => r.getD 0 "") = ["1", "2"] ∧
    (runPosts c2Oracle c2Store [post0 "p2"]).animal.map
      (fun r => specNormalizeName (r.getD 1 "")) = ["luna", "luna"] := by
  refine ⟨?_, ?_, ?_⟩ <;> decide

/-- C10 amended: `get_id` is total and never raises — it returns `none` on
an empty sheet, on a header row lacking a `nombre` or `id` column, and when
no row matches; when the columns exist it returns the trimmed id cell of the
first row whose `nombre` cell strip+lower-matches the queried name *and*
whose id cell is present and non-empty after trimming (matching rows with an
empty or missing id cell are skipped); and the queried name is normalized by
trimming and lowercasing only. -/
theorem c10_get_id_total_amended (name : String) :
    (get_id name [] = none) ∧
    (∀ (headerRow : List String) (rows : List (List String)),
      ((headerRow.map (fun h => strTrim (strLower h))).findIdx? (fun h => h == "nombre") = none ∨
       (headerRow.map (fun h => strTrim (strLower h))).findIdx? (fun h => h == "id") = none) →
      get_id name (headerRow :: rows) = none) ∧
    (∀ (headerRow : List String) (rows : List (List String)) (nc ic : Nat),
      (headerRow.map (fun h => strTrim (strLower h))).findIdx? (fun h => h == "nombre") = some nc →
      (headerRow.map (fun h => strTrim (strLower h))).findIdx? (fun h => h == "id") = some ic →
      get_id name (headerRow :: rows) =
        (rows.find? (rowMatchP (strLower (strTrim name)) nc ic)).bind
          (fun row => (row.get? ic).map strTrim)) ∧
    (∀ (n2 : String) (values : List (List String)),
      strLower (strTrim name) = strLower (strTrim n2) →
      get_id name values = get_id n2 values) := by
  refine ⟨rfl, ?_, ?_, fun n2 values h => get_id_congr name n2 h values⟩
  · intro headerRow rows h
    rcases h with h | h
    · simp [get_id, h]
    · cases hn : (headerRow.map (fun h => strTrim (strLower h))).findIdx? (fun h => h == "nombre") <;>
        simp [get_id, hn, h]
  · intro headerRow rows nc ic hn hi
    rw [show get_id name (headerRow :: rows) =
        (match (headerRow.map (fun h => strTrim (strLower h))).findIdx? (fun h => h == "nombre"),
              (headerRow.map (fun h => strTrim (strLower h))).findIdx? (fun h => h == "id") with
         | some nc2, some ic2 => scanRows (strLower (strTrim name)) nc2 ic2 rows
         | _, _ => none) from rfl, hn, hi]
    exact scanRows_eq_find (strLower (strTrim name)) nc ic rows

/-- C10 witness: the amended theorem's scan characterization applied at the
column layout `["id", "nombre"]` with no data rows. -/
theorem c10_get_id_total_witness :
    ((["id", "nombre"].map (fun h => strTrim (strLower h))).findIdx?
      (fun h => h == "nombre") = some 1) ∧
    get_id "x" [["id", "nombre"]] =
      (List.find? (rowMatchP (strLower (strTrim "x")) 1 0) ([] : List (List String))).bind
        (fun row => (row.get? 0).map strTrim) :=
  ⟨by decide, (c10_get_id_total_amended "x").2.2.1 ["id", "nombre"] [] 1 0 (by decide) (by decide)⟩

/-- C10 counterexample: on a sheet whose first `luna` row has an empty id
cell, `get_id "luna"` does not return that first matching row's (trimmed,
empty) id cell — it skips it and returns `"7"` from the second matching
row, refuting "returns the id cell of the first row whose nombre cell
equals the queried name". -/
theorem c10_get_id_counterexample :
    get_id "luna" c10vals = some "7" ∧
    (c10vals.getD 1 []).getD 1 "" = "luna" ∧
    strTrim ((c10vals.getD 1 []).getD 0 "") = "" := by
  refine ⟨?_, ?_, ?_⟩ <;> decide

/-- A word-boundary match implies plain substring containment. -/
lemma wordSearch_contains (needle : List Char) :
    ∀ (prev : Option Char) (l : List Char),
      wordSearchAux needle prev l = true → containsSub needle l = true := by
  intro prev l
  induction l generalizing prev with
  | nil => intro h; exact h
  | cons c t ih =>
    intro h
    simp only [wordSearchAux, Bool.or_eq_true, Bool.and_eq_true] at h
    simp only [containsSub, Bool.or_eq_true]
    rcases h with ⟨⟨hpre, _⟩, _⟩ | h
    · exact Or.inl hpre
    · exact Or.inr (ih (some c) h)

/-- A row matched by the Cabify word mask passes the expense keyword filter
(`CABIFY` is one of the keywords). -/
lemma cabify_keep (r : NegRow) (h : cabifyMask r = true) : keepKeyword r = true := by
  unfold cabifyMask hasWord at h
  have hc : containsSub ("CABIFY".data) (strUpper r.donante).data = true :=
    wordSearch_contains _ none _ h
  unfold keepKeyword
  rw [List.any_eq_true]
  exact ⟨"CABIFY", by decide, hc⟩

/-- C9: a `df_negativos` row whose provider matches the Cabify word pattern
and whose transaction date parses is excluded from the produced expense rows
when the date falls on Monday–Friday (weekday < 5) and kept when it falls on
Saturday or Sunday (weekday 5 or 6, `dt.weekday` convention). -/
theorem c9_cabify_weekend (rows : List NegRow) (r : NegRow) (d m y : Nat)
    (hmem : r ∈ rows) (hcab : cabifyMask r = true)
    (hdate : parseFecha r.fecha = some (d, m, y)) :
    (weekdayMon0 d m y < 5 → r ∉ process_expenses rows) ∧
    (weekdayMon0 d m y = 5 ∨ weekdayMon0 d m y = 6 → r ∈ process_expenses rows) := by
  have hwk : weekendMask r =
      (decide (weekdayMon0 d m y = 5) || decide (weekdayMon0 d m y = 6)) := by
    simp [weekendMask, hdate]
  constructor
  · intro hwd hin
    unfold process_expenses at hin
    rw [List.mem_filter] at hin
    rcases hin with ⟨_, hp⟩
    have h5 : weekdayMon0 d m y ≠ 5 := by omega
    have h6 : weekdayMon0 d m y ≠ 6 := by omega
    simp [hcab, hwk, h5, h6] at hp
  · intro hwd
    unfold process_expenses
    rw [List.mem_filter]
    refine ⟨List.mem_filter.mpr ⟨hmem, cabify_keep r hcab⟩, ?_⟩
    rcases hwd with h | h <;> simp [hcab, hwk, h]

/-- C9 witness: the theorem applied to a Cabify row dated Saturday
09/08/2025, which is kept. -/
theorem c9_cabify_weekend_witness :
    cabifyMask c9SatRow = true ∧
    parseFecha c9SatRow.fecha = some (9, 8, 2025) ∧
    weekdayMon0 9 8 2025 = 5 ∧
    c9SatRow ∈ process_expenses [c9SatRow] :=
  ⟨by decide, by decide, by decide,
   (c9_cabify_weekend [c9SatRow] c9SatRow 9 8 2025 (List.mem_singleton.mpr rfl)
      (by decide) (by decide)).2 (Or.inl (by decide))⟩

end Rescue101
